import Mathlib

/-!
# Verification of the mpl-wgpu instanced primitive renderer and capture pipeline

Shallow embedding of the renderer core of the `mpl-wgpu` repository:

* `src/primitives.rs` — `Instance`, `PrimitiveRenderer` (append operations,
  `prepare` = stable sort + buffer growth + upload, `render` = partition into
  two instanced draws);
* `src/capture.rs` — `padded_bytes_per_row`, `HeadlessRenderer::new`/`capture`
  (render pass cleared to white, texture→buffer copy, map, strip row padding,
  unmap), `PlotCapture::render_and_capture`.

Modelling conventions:

* `u32` values are `Nat` with `% 2^32` applied exactly where the Rust code
  performs `u32` arithmetic that can wrap (release-mode wrapping semantics).
* `usize` values are `Nat`; the quantities involved (`len * 80` for a `Vec`
  that exists in memory) cannot reach `2^64`, so no reduction is applied.
* `f32` values are embedded as `ℚ`.  The renderer performs no floating-point
  arithmetic on instance fields: it only stores the values handed to the
  append operations and reads back `params[0] as u32`, modelled by
  `ratToU32` (truncation towards zero, saturating to `[0, 2^32-1]`, exactly
  the semantics of Rust's `f32 as u32`).  The `u32 as f32` conversions in
  `draw_circle`/`draw_marker` are embedded exactly; real `f32` rounds values
  above `2^24` to a nearby integer, which no claim here can distinguish
  (all such values stay far above the tags `0,1,2,30,31`).
* GPU-side effects are modelled by the data handed to the GPU: the sorted
  instance list, the issued draw-call ranges, and the text sections uploaded
  to the glyph brush.
-/

namespace MplWgpu

/-- `2^32`, the modulus of Rust `u32` arithmetic. -/
def U32_MOD : Nat := 4294967296

/-- `COPY_BYTES_PER_ROW_ALIGNMENT` (capture.rs): wgpu's required row
alignment for texture-to-buffer copies. -/
def COPY_BYTES_PER_ROW_ALIGNMENT : Nat := 256

/-- `padded_bytes_per_row` (capture.rs):
`(width * 4 + align - 1) / align * align` in `u32` arithmetic.
The addition `unpadded + align` and the subtraction of `1` wrap mod `2^32`
(wrapping `- 1` is written as `+ (2^32 - 1)` mod `2^32`); the final
`/ align * align` cannot exceed `2^32 - align` and needs no reduction. -/
def padded_bytes_per_row (width : Nat) : Nat :=
  ((width * 4 % U32_MOD + COPY_BYTES_PER_ROW_ALIGNMENT) % U32_MOD
      + (U32_MOD - 1)) % U32_MOD
    / COPY_BYTES_PER_ROW_ALIGNMENT * COPY_BYTES_PER_ROW_ALIGNMENT

/-- In the overflow-free regime the padding computation rounds `width * 4`
up to the next multiple of 256. -/
theorem padded_bytes_per_row_spec (width : Nat) (hw : width * 4 + 255 < U32_MOD) :
    padded_bytes_per_row width % COPY_BYTES_PER_ROW_ALIGNMENT = 0 ∧
      width * 4 ≤ padded_bytes_per_row width := by
  unfold padded_bytes_per_row COPY_BYTES_PER_ROW_ALIGNMENT U32_MOD at *
  omega

/-! ## Instance records (primitives.rs) -/

/-- A `glam::Vec2` argument (components embedded as `ℚ`). -/
structure Vec2q where
  x : ℚ
  y : ℚ
deriving DecidableEq

/-- A `glam::Vec3` argument. -/
structure Vec3q where
  x : ℚ
  y : ℚ
  z : ℚ
deriving DecidableEq

/-- A `glam::Vec4` argument / an `[f32; 4]` field. -/
structure Vec4q where
  x : ℚ
  y : ℚ
  z : ℚ
  w : ℚ
deriving DecidableEq

instance : Inhabited Vec4q := ⟨⟨0, 0, 0, 0⟩⟩

/-- The `Instance` record (primitives.rs): five `[f32; 4]` fields;
`params = [prim_type, dash_len, gap_len, dash_offset]`. -/
structure Instance where
  pos_a_radius : Vec4q
  pos_b_width : Vec4q
  color : Vec4q
  params : Vec4q
  pos_c_pad : Vec4q
deriving DecidableEq

instance : Inhabited Instance :=
  ⟨⟨default, default, default, default, default⟩⟩

/-- `size_of::<Instance>()`: five `[f32; 4]` fields, 80 bytes. -/
def INSTANCE_SIZE : Nat := 80

/-- Rust's `f32 as u32` cast on an embedded `f32` value: truncation towards
zero, saturating into `[0, u32::MAX]`. -/
def ratToU32 (q : ℚ) : Nat :=
  min (U32_MOD - 1) (Int.toNat ⌊q⌋)

/-- The primitive-type tag of an instance: `i.params[0] as u32`. -/
def instTag (i : Instance) : Nat := ratToU32 i.params.x

/-- The sort key used by `prepare` (primitives.rs line 318):
`t != 30 && t != 31`, i.e. `true` exactly on non-face instances. -/
def instKey (i : Instance) : Bool :=
  (instTag i != 30) && (instTag i != 31)

/-- The predicate used by `render`'s `partition_point` (primitives.rs
line 350): `t == 30 || t == 31`. -/
def isFace (i : Instance) : Bool :=
  (instTag i == 30) || (instTag i == 31)

theorem instKey_eq_not_isFace (i : Instance) : instKey i = !(isFace i) := by
  unfold instKey isFace
  cases h30 : instTag i == 30 <;> cases h31 : instTag i == 31 <;> simp_all

/-! ## PrimitiveRenderer state and append operations -/

/-- The state of `PrimitiveRenderer` relevant to batching:
the accumulator, the byte size of the GPU instance buffer
(`instance_buffer.size()`), and the tracked `capacity` field
(in instances). -/
structure PrimState where
  instances : List Instance
  instance_buffer_size : Nat
  capacity : Nat
deriving DecidableEq

/-- `PrimitiveRenderer::new`: empty accumulator, initial capacity 1024
instances, buffer of `1024 * size_of::<Instance>()` bytes. -/
def PrimitiveRenderer_new : PrimState :=
  { instances := [], instance_buffer_size := 1024 * INSTANCE_SIZE, capacity := 1024 }

/-- `draw_rect`: pushes a rectangle record, `params[0] = 0`. -/
def draw_rect (s : PrimState) (pos size : Vec2q) (color : Vec4q)
    (radius stroke_width : ℚ) : PrimState :=
  { s with instances := s.instances ++
      [{ pos_a_radius := ⟨pos.x, pos.y, 0, radius⟩
         pos_b_width := ⟨size.x, size.y, 0, stroke_width⟩
         color := color
         params := ⟨0, 0, 0, 0⟩
         pos_c_pad := ⟨0, 0, 0, 0⟩ }] }

/-- `draw_circle`: pushes a record whose `params[0]` is the caller-supplied
`marker_type : u32` cast to `f32`. -/
def draw_circle (s : PrimState) (center : Vec3q) (radius : ℚ) (color : Vec4q)
    (stroke_width : ℚ) (marker_type : Nat) : PrimState :=
  { s with instances := s.instances ++
      [{ pos_a_radius := ⟨center.x, center.y, center.z, radius⟩
         pos_b_width := ⟨0, 0, 0, stroke_width⟩
         color := color
         params := ⟨(marker_type : ℚ), 0, 0, 0⟩
         pos_c_pad := ⟨0, 0, 0, 0⟩ }] }

/-- `draw_oval`: `params[0] = 1` (circle/oval). -/
def draw_oval (s : PrimState) (center radii : Vec2q) (color : Vec4q)
    (stroke_width : ℚ) : PrimState :=
  { s with instances := s.instances ++
      [{ pos_a_radius := ⟨center.x, center.y, 0, radii.x⟩
         pos_b_width := ⟨radii.y, 0, 0, stroke_width⟩
         color := color
         params := ⟨1, 0, 0, 0⟩
         pos_c_pad := ⟨0, 0, 0, 0⟩ }] }

/-- `draw_marker`: `params[0] = (10 + marker_type) as f32`; the `u32`
addition wraps mod `2^32`. -/
def draw_marker (s : PrimState) (center radii : Vec2q) (marker_type : Nat)
    (color : Vec4q) (stroke_width : ℚ) : PrimState :=
  { s with instances := s.instances ++
      [{ pos_a_radius := ⟨center.x, center.y, 0, radii.x⟩
         pos_b_width := ⟨radii.y, 0, 0, stroke_width⟩
         color := color
         params := ⟨(((10 + marker_type) % U32_MOD : Nat) : ℚ), 0, 0, 0⟩
         pos_c_pad := ⟨0, 0, 0, 0⟩ }] }

/-- `draw_line`: `params = [2, dash_len, gap_len, dash_offset]`,
`pos_a_radius.w = thickness * 0.5`. -/
def draw_line (s : PrimState) (pa pb : Vec3q) (thickness : ℚ) (color : Vec4q)
    (dash_len gap_len dash_offset : ℚ) : PrimState :=
  { s with instances := s.instances ++
      [{ pos_a_radius := ⟨pa.x, pa.y, pa.z, thickness * (1 / 2)⟩
         pos_b_width := ⟨pb.x, pb.y, pb.z, 0⟩
         color := color
         params := ⟨2, dash_len, gap_len, dash_offset⟩
         pos_c_pad := ⟨0, 0, 0, 0⟩ }] }

/-- `draw_triangle_unlit`: `params[0] = 31`. -/
def draw_triangle_unlit (s : PrimState) (p0 p1 p2 : Vec3q) (color : Vec4q) :
    PrimState :=
  { s with instances := s.instances ++
      [{ pos_a_radius := ⟨p0.x, p0.y, p0.z, 0⟩
         pos_b_width := ⟨p1.x, p1.y, p1.z, 0⟩
         color := color
         params := ⟨31, 0, 0, 0⟩
         pos_c_pad := ⟨p2.x, p2.y, p2.z, 0⟩ }] }

/-- `draw_triangle`: `params[0] = 30`. -/
def draw_triangle (s : PrimState) (p0 p1 p2 : Vec3q) (color : Vec4q) :
    PrimState :=
  { s with instances := s.instances ++
      [{ pos_a_radius := ⟨p0.x, p0.y, p0.z, 0⟩
         pos_b_width := ⟨p1.x, p1.y, p1.z, 0⟩
         color := color
         params := ⟨30, 0, 0, 0⟩
         pos_c_pad := ⟨p2.x, p2.y, p2.z, 0⟩ }] }

/-- `clear`: empties the accumulator. -/
def prim_clear (s : PrimState) : PrimState := { s with instances := [] }

/-! ## prepare and render -/

/-- The ordering on sort keys used by `sort_by_key`: `Bool` order
(`false < true`), i.e. `instKey a ≤ instKey b`. -/
def primLE (a b : Instance) : Bool := !(instKey a) || instKey b

/-- `PrimitiveRenderer::prepare`: no-op on an empty accumulator; otherwise
stable-sorts by `instKey` (faces, key `false`, first), then reallocates the
instance buffer exactly to the batch's byte size if it exceeds the current
buffer size (updating `capacity`), and uploads (upload has no further
CPU-visible effect). -/
def prepare (s : PrimState) : PrimState :=
  if s.instances.isEmpty then s
  else
    let sorted := s.instances.mergeSort primLE
    let size := sorted.length * INSTANCE_SIZE
    if s.instance_buffer_size < size then
      { instances := sorted, instance_buffer_size := size, capacity := sorted.length }
    else
      { s with instances := sorted }

/-- The binary search loop of Rust's `slice::partition_point` /
`binary_search_by`: invariant `left ≤ right ≤ l.length`; probes the middle
element and narrows the interval. -/
def partition_point_go (pred : Instance → Bool) (l : List Instance)
    (left right : Nat) : Nat :=
  if left < right then
    if pred (l.getD (left + (right - left) / 2) default) then
      partition_point_go pred l (left + (right - left) / 2 + 1) right
    else
      partition_point_go pred l left (left + (right - left) / 2)
  else left
termination_by right - left
decreasing_by
  · omega
  · omega

/-- Rust's `slice::partition_point` over the whole slice. -/
def partition_point (pred : Instance → Bool) (l : List Instance) : Nat :=
  partition_point_go pred l 0 l.length

/-- The two pipelines of the renderer. -/
inductive PipelineKind where
  | depthWrite
  | lines
deriving DecidableEq

/-- One `rp.draw(vertices, instances)` call: vertex range `[vertLo, vertHi)`
and instance range `[instLo, instHi)` on the bound pipeline. -/
structure DrawCall where
  pipeline : PipelineKind
  vertLo : Nat
  vertHi : Nat
  instLo : Nat
  instHi : Nat
deriving DecidableEq

/-- `PrimitiveRenderer::render`: no-op on an empty accumulator; otherwise
computes `split_idx = partition_point (t == 30 || t == 31)` and issues the
depth-write draw over `[0, split_idx)` if `split_idx > 0`, then the
line/blend draw over `[split_idx, len)` if `split_idx < len`; every draw
uses the fixed 6-vertex quad `0..6`. -/
def render (s : PrimState) : List DrawCall :=
  if s.instances.isEmpty then []
  else
    let split_idx := partition_point isFace s.instances
    (if 0 < split_idx then
        [{ pipeline := .depthWrite, vertLo := 0, vertHi := 6,
           instLo := 0, instHi := split_idx }]
      else []) ++
    (if split_idx < s.instances.length then
        [{ pipeline := .lines, vertLo := 0, vertHi := 6,
           instLo := split_idx, instHi := s.instances.length }]
      else [])

/-! ## Stable sort by a boolean key -/

theorem boolKeyLE_trans {α : Type} (k : α → Bool) (a b c : α)
    (h1 : (!(k a) || k b) = true) (h2 : (!(k b) || k c) = true) :
    (!(k a) || k c) = true := by
  cases ha : k a <;> cases hb : k b <;> cases hc : k c <;> simp_all

theorem boolKeyLE_total {α : Type} (k : α → Bool) (a b : α) :
    ((!(k a) || k b) || (!(k b) || k a)) = true := by
  cases ha : k a <;> cases hb : k b <;> simp

/-- A stable sort by a boolean key is exactly the stable partition: the
key-`false` elements in their original order, followed by the key-`true`
elements in their original order. -/
theorem mergeSort_boolKey {α : Type} (k : α → Bool) (l : List α) :
    l.mergeSort (fun a b => !(k a) || k b) =
      l.filter (fun a => !(k a)) ++ l.filter k := by
  induction l with
  | nil => simp
  | cons a l ih =>
    obtain ⟨l₁, l₂, h₁, h₂, h₃⟩ :=
      List.mergeSort_cons (boolKeyLE_trans k) (boolKeyLE_total k) a l
    cases hk : k a with
    | false =>
      have hnil : l₁ = [] := by
        rw [List.eq_nil_iff_forall_not_mem]
        intro b hb
        have := h₃ b hb
        simp [hk] at this
      subst hnil
      simp only [List.nil_append] at h₁ h₂
      rw [h₁, h₂.symm.trans ih]
      simp [List.filter_cons, hk]
    | true =>
      have hl₁ : ∀ b ∈ l₁, k b = false := by
        intro b hb
        have := h₃ b hb
        simpa [hk] using this
      have hsorted := @List.sorted_mergeSort α (fun a b => !(k a) || k b)
        (boolKeyLE_trans k) (boolKeyLE_total k) (a :: l)
      rw [h₁] at hsorted
      have hl₂ : ∀ b ∈ l₂, k b = true := by
        intro b hb
        have := (List.pairwise_append.mp hsorted).2.1
        have := (List.pairwise_cons.mp this).1 b hb
        simpa [hk] using this
      have heq : l₁ ++ l₂ = l.filter (fun a => !(k a)) ++ l.filter k :=
        h₂.symm.trans ih
      have hfF : ∀ b ∈ l.filter (fun a => !(k a)), k b = false := by
        intro b hb
        have := (List.mem_filter.mp hb).2
        simpa using this
      have hfT : ∀ b ∈ l.filter k, k b = true := fun b hb =>
        (List.mem_filter.mp hb).2
      have hkeep : ∀ (xs : List α), (∀ b ∈ xs, k b = true) → xs.filter k = xs :=
        fun xs h => List.filter_eq_self.mpr h
      have hdropf : ∀ (xs : List α), (∀ b ∈ xs, k b = false) → xs.filter k = [] := by
        intro xs h
        rw [List.filter_eq_nil_iff]
        intro b hb
        simp [h b hb]
      have h2eq : l₂ = l.filter k := by
        have := congrArg (List.filter k) heq
        rwa [List.filter_append, List.filter_append,
          hdropf l₁ hl₁, hkeep l₂ hl₂,
          hdropf _ hfF, hkeep _ hfT, List.nil_append, List.nil_append] at this
      have h1eq : l₁ = l.filter (fun a => !(k a)) := by
        have hlen : l₁.length = (l.filter (fun a => !(k a))).length := by
          have := congrArg List.length heq
          simp only [List.length_append] at this
          have := congrArg List.length h2eq
          omega
        exact (List.append_inj heq hlen).1
      rw [h₁, h1eq, h2eq]
      simp [List.filter_cons, hk]

/-- `prepare` performs exactly the stable partition of the accumulator:
face-type instances (key `false`) first, each group in insertion order. -/
theorem prepare_instances (s : PrimState) :
    (prepare s).instances =
      s.instances.filter (fun i => !(instKey i)) ++ s.instances.filter instKey := by
  have hms : s.instances.mergeSort primLE =
      s.instances.filter (fun i => !(instKey i)) ++ s.instances.filter instKey :=
    mergeSort_boolKey instKey s.instances
  unfold prepare
  by_cases h : s.instances.isEmpty
  · rw [List.isEmpty_iff] at h
    simp [h]
  · rw [if_neg h]
    dsimp only
    split <;> exact hms

/-! ## partition_point on a partitioned list -/

theorem partition_point_go_append (pred : Instance → Bool) (A B : List Instance)
    (hA : ∀ a ∈ A, pred a = true) (hB : ∀ b ∈ B, pred b = false) :
    ∀ (n left right : Nat), right - left ≤ n → left ≤ A.length →
      A.length ≤ right → right ≤ A.length + B.length →
      partition_point_go pred (A ++ B) left right = A.length := by
  intro n
  induction n with
  | zero =>
    intro left right h1 h2 h3 h4
    rw [partition_point_go]
    have : ¬ left < right := by omega
    simp only [this, if_false]
    omega
  | succ n ih =>
    intro left right h1 h2 h3 h4
    rw [partition_point_go]
    by_cases hlr : left < right
    · simp only [hlr, if_true]
      have hmid : left + (right - left) / 2 < right := by omega
      by_cases hm : left + (right - left) / 2 < A.length
      · have hval : (A ++ B).getD (left + (right - left) / 2) default =
            A.getD (left + (right - left) / 2) default :=
          List.getD_append _ _ _ _ hm
        have hmem : A.getD (left + (right - left) / 2) default ∈ A := by
          rw [List.getD_eq_getElem _ _ hm]
          exact List.getElem_mem hm
        rw [hval, hA _ hmem]
        simp only [if_true]
        exact ih _ _ (by omega) (by omega) h3 h4
      · have hge : A.length ≤ left + (right - left) / 2 := by omega
        have hlt : left + (right - left) / 2 - A.length < B.length := by omega
        have hval : (A ++ B).getD (left + (right - left) / 2) default =
            B.getD (left + (right - left) / 2 - A.length) default :=
          List.getD_append_right _ _ _ _ hge
        have hmem : B.getD (left + (right - left) / 2 - A.length) default ∈ B := by
          rw [List.getD_eq_getElem _ _ hlt]
          exact List.getElem_mem hlt
        rw [hval, hB _ hmem]
        simp only [Bool.false_eq_true, if_false]
        exact ih _ _ (by omega) h2 (by omega) (by omega)
    · simp only [hlr, if_false]
      omega

/-- On a list that is partitioned as `A ++ B` with the predicate true on all
of `A` and false on all of `B`, `partition_point` returns `A.length`. -/
theorem partition_point_append (pred : Instance → Bool) (A B : List Instance)
    (hA : ∀ a ∈ A, pred a = true) (hB : ∀ b ∈ B, pred b = false) :
    partition_point pred (A ++ B) = A.length := by
  unfold partition_point
  exact partition_point_go_append pred A B hA hB (A ++ B).length 0 (A ++ B).length
    (by omega) (by omega) (by simp) (by simp)

/-! ## Facts connecting the sort key and the render predicate -/

theorem mem_filter_notKey_isFace {l : List Instance} {a : Instance}
    (ha : a ∈ l.filter (fun i => !(instKey i))) : isFace a = true := by
  have := (List.mem_filter.mp ha).2
  have hk := instKey_eq_not_isFace a
  cases hf : isFace a <;> simp_all

theorem mem_filter_key_not_isFace {l : List Instance} {b : Instance}
    (hb : b ∈ l.filter instKey) : isFace b = false := by
  have := (List.mem_filter.mp hb).2
  have hk := instKey_eq_not_isFace b
  cases hf : isFace b <;> simp_all

theorem filter_key_length_add (l : List Instance) :
    (l.filter (fun i => !(instKey i))).length + (l.filter instKey).length
      = l.length := by
  have := congrArg List.length (mergeSort_boolKey instKey l)
  simp only [List.length_mergeSort, List.length_append] at this
  omega

/-- C1: for a non-empty batch that went through `prepare`, `render` issues
the depth-write draw over `[0, split)` exactly when a face-type instance
(`params[0] ∈ {30,31}`) exists, the line/blend draw over `[split, n)`
exactly when a non-face instance exists, where `split` is the number of
face-type instances (the length of the leading face run of the sorted
batch); the two instance ranges cover every instance index exactly once. -/
theorem render_partitions_batch (s : PrimState) (h : s.instances ≠ []) :
    render (prepare s) =
      (if 0 < (s.instances.filter (fun i => !(instKey i))).length then
          [{ pipeline := .depthWrite, vertLo := 0, vertHi := 6, instLo := 0,
             instHi := (s.instances.filter (fun i => !(instKey i))).length }]
        else []) ++
      (if (s.instances.filter (fun i => !(instKey i))).length < s.instances.length then
          [{ pipeline := .lines, vertLo := 0, vertHi := 6,
             instLo := (s.instances.filter (fun i => !(instKey i))).length,
             instHi := s.instances.length }]
        else []) ∧
    ((∃ c ∈ render (prepare s), c.pipeline = .depthWrite) ↔
      ∃ i ∈ s.instances, isFace i = true) ∧
    ((∃ c ∈ render (prepare s), c.pipeline = .lines) ↔
      ∃ i ∈ s.instances, isFace i = false) ∧
    (∀ j, j < s.instances.length →
      (render (prepare s)).countP
        (fun c => decide (c.instLo ≤ j ∧ j < c.instHi)) = 1) := by
  have hprep := prepare_instances s
  have hFface : ∀ a ∈ s.instances.filter (fun i => !(instKey i)), isFace a = true :=
    fun a ha => mem_filter_notKey_isFace ha
  have hNface : ∀ b ∈ s.instances.filter instKey, isFace b = false :=
    fun b hb => mem_filter_key_not_isFace hb
  have hsplit := partition_point_append isFace _ _ hFface hNface
  have hlen := filter_key_length_add s.instances
  have hlpos : 0 < s.instances.length := List.length_pos.mpr h
  have hne : ¬ (prepare s).instances.isEmpty = true := by
    rw [List.isEmpty_iff, hprep]
    intro hc
    have := congrArg List.length hc
    simp only [List.length_append, List.length_nil] at this
    omega
  have hrender : render (prepare s) =
      (if 0 < (s.instances.filter (fun i => !(instKey i))).length then
          [{ pipeline := .depthWrite, vertLo := 0, vertHi := 6, instLo := 0,
             instHi := (s.instances.filter (fun i => !(instKey i))).length }]
        else []) ++
      (if (s.instances.filter (fun i => !(instKey i))).length < s.instances.length then
          [{ pipeline := .lines, vertLo := 0, vertHi := 6,
             instLo := (s.instances.filter (fun i => !(instKey i))).length,
             instHi := s.instances.length }]
        else []) := by
    unfold render
    rw [if_neg hne]
    dsimp only
    rw [hprep, hsplit, List.length_append, hlen]
  have hFpos : 0 < (s.instances.filter (fun i => !(instKey i))).length ↔
      ∃ i ∈ s.instances, isFace i = true := by
    constructor
    · intro hp
      obtain ⟨a, ha⟩ := List.exists_mem_of_length_pos hp
      exact ⟨a, (List.mem_filter.mp ha).1, hFface a ha⟩
    · rintro ⟨i, hi, hface⟩
      have hik : (!(instKey i)) = true := by
        rw [instKey_eq_not_isFace, hface]
        rfl
      have : i ∈ s.instances.filter (fun i => !(instKey i)) :=
        List.mem_filter.mpr ⟨hi, hik⟩
      exact List.length_pos.mpr (List.ne_nil_of_mem this)
  have hNpos : 0 < (s.instances.filter instKey).length ↔
      ∃ i ∈ s.instances, isFace i = false := by
    constructor
    · intro hp
      obtain ⟨b, hb⟩ := List.exists_mem_of_length_pos hp
      exact ⟨b, (List.mem_filter.mp hb).1, hNface b hb⟩
    · rintro ⟨i, hi, hface⟩
      have hik : instKey i = true := by
        rw [instKey_eq_not_isFace, hface]
        rfl
      have : i ∈ s.instances.filter instKey := List.mem_filter.mpr ⟨hi, hik⟩
      exact List.length_pos.mpr (List.ne_nil_of_mem this)
  refine ⟨hrender, ?_, ?_, ?_⟩
  · rw [← hFpos]
    by_cases hf : 0 < (s.instances.filter (fun i => !(instKey i))).length <;>
      by_cases hn : (s.instances.filter (fun i => !(instKey i))).length
          < s.instances.length <;>
      simp [hrender, hf, hn]
  · have hiffN : ((s.instances.filter (fun i => !(instKey i))).length
        < s.instances.length) ↔ 0 < (s.instances.filter instKey).length := by
      omega
    rw [← hNpos, ← hiffN]
    by_cases hf : 0 < (s.instances.filter (fun i => !(instKey i))).length <;>
      by_cases hn : (s.instances.filter (fun i => !(instKey i))).length
          < s.instances.length <;>
      simp [hrender, hf, hn]
  · intro j hj
    by_cases hf : 0 < (s.instances.filter (fun i => !(instKey i))).length <;>
      by_cases hn : (s.instances.filter (fun i => !(instKey i))).length
          < s.instances.length <;>
      by_cases hjf : j < (s.instances.filter (fun i => !(instKey i))).length <;>
      simp [hrender, hf, hn, List.countP_cons, hjf] <;> omega

/-- Sample face-type instance (as produced by `draw_triangle`). -/
def instFace30 : Instance :=
  ⟨⟨0, 0, 0, 0⟩, ⟨0, 0, 0, 0⟩, ⟨1, 0, 0, 1⟩, ⟨30, 0, 0, 0⟩, ⟨0, 0, 0, 0⟩⟩

/-- Sample line instance (as produced by `draw_line`). -/
def instLine2 : Instance :=
  ⟨⟨0, 0, 0, 1⟩, ⟨1, 1, 0, 0⟩, ⟨0, 0, 1, 1⟩, ⟨2, 0, 0, 0⟩, ⟨0, 0, 0, 0⟩⟩

/-- A concrete two-instance batch. -/
def c1state : PrimState :=
  { instances := [instFace30, instLine2], instance_buffer_size := 0, capacity := 0 }

/-- Witness for C1 at a concrete two-instance batch. -/
theorem render_partitions_batch_witness :
    c1state.instances ≠ [] ∧
    (render (prepare c1state) =
      (if 0 < (c1state.instances.filter (fun i => !(instKey i))).length then
          [{ pipeline := .depthWrite, vertLo := 0, vertHi := 6, instLo := 0,
             instHi := (c1state.instances.filter (fun i => !(instKey i))).length }]
        else []) ++
      (if (c1state.instances.filter (fun i => !(instKey i))).length
          < c1state.instances.length then
          [{ pipeline := .lines, vertLo := 0, vertHi := 6,
             instLo := (c1state.instances.filter (fun i => !(instKey i))).length,
             instHi := c1state.instances.length }]
        else []) ∧
    ((∃ c ∈ render (prepare c1state), c.pipeline = .depthWrite) ↔
      ∃ i ∈ c1state.instances, isFace i = true) ∧
    ((∃ c ∈ render (prepare c1state), c.pipeline = .lines) ↔
      ∃ i ∈ c1state.instances, isFace i = false) ∧
    (∀ j, j < c1state.instances.length →
      (render (prepare c1state)).countP
        (fun c => decide (c.instLo ≤ j ∧ j < c.instHi)) = 1)) :=
  ⟨by decide, render_partitions_batch c1state (by decide)⟩

/-- C2: `prepare` stable-sorts the accumulator by the boolean key
"`params[0] ∉ {30,31}`": the result is exactly the face-type instances in
their original insertion order followed by the non-face instances in their
original insertion order (the unique stable sort by that key), and is a
permutation of the accumulator. -/
theorem prepare_stable_sort_faces_first (s : PrimState) :
    (prepare s).instances =
      s.instances.filter (fun i => !(instKey i)) ++ s.instances.filter instKey ∧
    (prepare s).instances.Perm s.instances := by
  refine ⟨prepare_instances s, ?_⟩
  rw [prepare_instances s]
  have := List.filter_append_perm (fun i => !(instKey i)) s.instances
  simpa using this

/-! ## The closed tag enumeration (C5) -/

/-- The closed primitive-type enumeration of the spec: rectangle `0`,
circle/oval `1`, line `2`, extended markers `10 + marker_index`,
lit triangle `30`, unlit triangle `31`. -/
def tagInEnum (t : Nat) : Prop :=
  t = 0 ∨ t = 1 ∨ t = 2 ∨ (∃ m : Nat, t = 10 + m) ∨ t = 30 ∨ t = 31

instance instDecidableTagInEnum (t : Nat) : Decidable (tagInEnum t) :=
  decidable_of_iff (t = 0 ∨ t = 1 ∨ t = 2 ∨ 10 ≤ t ∨ t = 30 ∨ t = 31) (by
    unfold tagInEnum
    constructor
    · rintro (h | h | h | h | h | h)
      · exact Or.inl h
      · exact Or.inr (Or.inl h)
      · exact Or.inr (Or.inr (Or.inl h))
      · exact Or.inr (Or.inr (Or.inr (Or.inl ⟨t - 10, by omega⟩)))
      · exact Or.inr (Or.inr (Or.inr (Or.inr (Or.inl h))))
      · exact Or.inr (Or.inr (Or.inr (Or.inr (Or.inr h))))
    · rintro (h | h | h | ⟨m, h⟩ | h | h) <;> omega)

/-- One append operation of the renderer, with its full argument list. -/
inductive DrawOp where
  | rect (pos size : Vec2q) (color : Vec4q) (radius stroke_width : ℚ)
  | circle (center : Vec3q) (radius : ℚ) (color : Vec4q) (stroke_width : ℚ)
      (marker_type : Nat)
  | oval (center radii : Vec2q) (color : Vec4q) (stroke_width : ℚ)
  | marker (center radii : Vec2q) (marker_type : Nat) (color : Vec4q)
      (stroke_width : ℚ)
  | line (pa pb : Vec3q) (thickness : ℚ) (color : Vec4q)
      (dash_len gap_len dash_offset : ℚ)
  | triangle (p0 p1 p2 : Vec3q) (color : Vec4q)
  | triangleUnlit (p0 p1 p2 : Vec3q) (color : Vec4q)
deriving DecidableEq

/-- Dispatches one append operation to the corresponding `draw_*`. -/
def applyDrawOp (s : PrimState) : DrawOp → PrimState
  | .rect pos size color radius sw => draw_rect s pos size color radius sw
  | .circle c r color sw m => draw_circle s c r color sw m
  | .oval c radii color sw => draw_oval s c radii color sw
  | .marker c radii m color sw => draw_marker s c radii m color sw
  | .line pa pb t color dl gl doff => draw_line s pa pb t color dl gl doff
  | .triangle p0 p1 p2 color => draw_triangle s p0 p1 p2 color
  | .triangleUnlit p0 p1 p2 color => draw_triangle_unlit s p0 p1 p2 color

/-- A sequence of append operations applied in order. -/
def applyDrawOps (s : PrimState) (ops : List DrawOp) : PrimState :=
  ops.foldl applyDrawOp s

theorem ratToU32_natCast (n : Nat) : ratToU32 (n : ℚ) = min (U32_MOD - 1) n := by
  unfold ratToU32
  rw [Int.floor_natCast, Int.toNat_natCast]

/-- The argument restriction under which the appended tags stay inside the
closed enumeration: `draw_circle` must be called with a `marker_type` that
is itself an enumeration value (the code stores it directly as the tag),
and `draw_marker`'s `10 + marker_type` must not wrap around `2^32`. -/
def opWellTagged : DrawOp → Prop
  | .circle _ _ _ _ m => tagInEnum m
  | .marker _ _ m _ _ => 10 + m < U32_MOD
  | _ => True

instance instDecidableOpWellTagged : (op : DrawOp) → Decidable (opWellTagged op)
  | .rect _ _ _ _ _ => isTrue trivial
  | .circle _ _ _ _ m => instDecidableTagInEnum m
  | .oval _ _ _ _ => isTrue trivial
  | .marker _ _ m _ _ => Nat.decLt (10 + m) U32_MOD
  | .line _ _ _ _ _ _ _ => isTrue trivial
  | .triangle _ _ _ _ => isTrue trivial
  | .triangleUnlit _ _ _ _ => isTrue trivial

theorem tagInEnum_min_u32 {m : Nat} (h : tagInEnum m) :
    tagInEnum (min (U32_MOD - 1) m) := by
  by_cases hm : m ≤ U32_MOD - 1
  · rwa [min_eq_right hm]
  · rw [min_eq_left (by omega)]
    exact Or.inr (Or.inr (Or.inr (Or.inl ⟨U32_MOD - 1 - 10, by
      unfold U32_MOD
      omega⟩)))

theorem ratToU32_natCast_lt {n : Nat} (h : n < U32_MOD) : ratToU32 (n : ℚ) = n := by
  rw [ratToU32_natCast, min_eq_right (by omega)]

theorem applyDrawOp_tags {s : PrimState} {op : DrawOp}
    (h₀ : ∀ i ∈ s.instances, tagInEnum (instTag i)) (hop : opWellTagged op) :
    ∀ i ∈ (applyDrawOp s op).instances, tagInEnum (instTag i) := by
  cases op with
  | rect pos size color radius sw =>
    intro i hi
    rcases List.mem_append.mp hi with hi | hi
    · exact h₀ i hi
    · rw [List.mem_singleton] at hi
      subst hi
      exact Or.inl (by show ratToU32 0 = 0; decide)
  | circle c r color sw m =>
    intro i hi
    rcases List.mem_append.mp hi with hi | hi
    · exact h₀ i hi
    · rw [List.mem_singleton] at hi
      subst hi
      show tagInEnum (ratToU32 (m : ℚ))
      rw [ratToU32_natCast]
      exact tagInEnum_min_u32 hop
  | oval c radii color sw =>
    intro i hi
    rcases List.mem_append.mp hi with hi | hi
    · exact h₀ i hi
    · rw [List.mem_singleton] at hi
      subst hi
      exact Or.inr (Or.inl (by show ratToU32 1 = 1; decide))
  | marker c radii m color sw =>
    intro i hi
    rcases List.mem_append.mp hi with hi | hi
    · exact h₀ i hi
    · rw [List.mem_singleton] at hi
      subst hi
      show tagInEnum (ratToU32 (((10 + m) % U32_MOD : Nat) : ℚ))
      have hlt : (10 + m) % U32_MOD < U32_MOD :=
        Nat.mod_lt _ (by unfold U32_MOD; omega)
      rw [ratToU32_natCast_lt hlt, Nat.mod_eq_of_lt hop]
      exact Or.inr (Or.inr (Or.inr (Or.inl ⟨m, rfl⟩)))
  | line pa pb t color dl gl doff =>
    intro i hi
    rcases List.mem_append.mp hi with hi | hi
    · exact h₀ i hi
    · rw [List.mem_singleton] at hi
      subst hi
      exact Or.inr (Or.inr (Or.inl (by show ratToU32 2 = 2; decide)))
  | triangle p0 p1 p2 color =>
    intro i hi
    rcases List.mem_append.mp hi with hi | hi
    · exact h₀ i hi
    · rw [List.mem_singleton] at hi
      subst hi
      exact Or.inr (Or.inr (Or.inr (Or.inr (Or.inl (by show ratToU32 30 = 30; decide)))))
  | triangleUnlit p0 p1 p2 color =>
    intro i hi
    rcases List.mem_append.mp hi with hi | hi
    · exact h₀ i hi
    · rw [List.mem_singleton] at hi
      subst hi
      exact Or.inr (Or.inr (Or.inr (Or.inr (Or.inr (by show ratToU32 31 = 31; decide)))))

/-- C5 counterexample: `draw_circle` stores its `marker_type` argument
directly as the primitive tag, so the call
`draw_circle(center, 1, color, 0, 3)` puts `params[0] = 3` into the
accumulator, and `3` is not in the closed enumeration
`{0, 1, 2, 10+m, 30, 31}`. -/
theorem draw_circle_escapes_enum :
    ¬ (∀ i ∈ (applyDrawOps PrimitiveRenderer_new
        [DrawOp.circle ⟨0, 0, 0⟩ 1 ⟨0, 0, 0, 1⟩ 0 3]).instances,
        tagInEnum (instTag i)) := by
  intro hall
  have h3 := hall
    ⟨⟨0, 0, 0, 1⟩, ⟨0, 0, 0, 0⟩, ⟨0, 0, 0, 1⟩, ⟨((3 : Nat) : ℚ), 0, 0, 0⟩,
      ⟨0, 0, 0, 0⟩⟩
    (by
      simp [applyDrawOps, applyDrawOp, draw_circle, PrimitiveRenderer_new])
  have htag : instTag
      (⟨⟨0, 0, 0, 1⟩, ⟨0, 0, 0, 0⟩, ⟨0, 0, 0, 1⟩, ⟨((3 : Nat) : ℚ), 0, 0, 0⟩,
        ⟨0, 0, 0, 0⟩⟩ : Instance) = 3 := by
    show ratToU32 ((3 : Nat) : ℚ) = 3
    decide
  rw [htag] at h3
  rcases h3 with h | h | h | ⟨m, h⟩ | h | h <;> omega

/-- C5 (amended): starting from an accumulator whose tags all lie in the
closed enumeration, any sequence of append operations keeps every
`params[0]` tag in the enumeration, provided each `draw_circle` call passes
a `marker_type` that is itself an enumeration value and each `draw_marker`
call's `10 + marker_type` does not wrap around `2^32`. -/
theorem applyDrawOps_tags_in_enum (s₀ : PrimState)
    (h₀ : ∀ i ∈ s₀.instances, tagInEnum (instTag i))
    (ops : List DrawOp) (hops : ∀ op ∈ ops, opWellTagged op) :
    ∀ i ∈ (applyDrawOps s₀ ops).instances, tagInEnum (instTag i) := by
  induction ops generalizing s₀ with
  | nil => simpa [applyDrawOps] using h₀
  | cons op ops ih =>
    simp only [applyDrawOps, List.foldl_cons] at *
    exact ih (applyDrawOp s₀ op)
      (applyDrawOp_tags h₀ (hops op (List.mem_cons_self op ops)))
      (fun o ho => hops o (List.mem_cons_of_mem op ho))

/-- A concrete well-tagged operation sequence: one rectangle, one circle
with tag 1, one marker, one line, one unlit triangle. -/
def c5ops : List DrawOp :=
  [DrawOp.rect ⟨0, 0⟩ ⟨1, 1⟩ ⟨1, 0, 0, 1⟩ 0 0,
   DrawOp.circle ⟨0, 0, 0⟩ 1 ⟨0, 1, 0, 1⟩ 0 1,
   DrawOp.marker ⟨0, 0⟩ ⟨1, 1⟩ 3 ⟨0, 0, 1, 1⟩ 0,
   DrawOp.line ⟨0, 0, 0⟩ ⟨1, 1, 0⟩ 2 ⟨0, 0, 1, 1⟩ 0 0 0,
   DrawOp.triangleUnlit ⟨0, 0, 0⟩ ⟨1, 0, 0⟩ ⟨0, 1, 0⟩ ⟨1, 1, 1, 1⟩]

/-- Witness for the amended C5 on a concrete operation sequence. -/
theorem applyDrawOps_tags_in_enum_witness :
    (∀ i ∈ PrimitiveRenderer_new.instances, tagInEnum (instTag i)) ∧
    (∀ op ∈ c5ops, opWellTagged op) ∧
    (∀ i ∈ (applyDrawOps PrimitiveRenderer_new c5ops).instances,
      tagInEnum (instTag i)) :=
  ⟨by simp [PrimitiveRenderer_new], by decide,
    applyDrawOps_tags_in_enum PrimitiveRenderer_new
      (by simp [PrimitiveRenderer_new]) c5ops (by decide)⟩

/-! ## C4: instance-buffer capacity tracking -/

/-- The relation the constructor establishes between the tracked `capacity`
field (in instances) and the allocated buffer size (in bytes). -/
def buf_inv (s : PrimState) : Prop :=
  s.instance_buffer_size = s.capacity * INSTANCE_SIZE

/-- C4: the instance buffer's tracked size never shrinks across `prepare`
calls; an oversized batch triggers a reallocation sized exactly to the
batch (updating `capacity` to the batch's instance count), and a batch
that fits leaves both the buffer and `capacity` unchanged.  The invariant
`buf_inv` (buffer size = capacity × instance size) is established by
`PrimitiveRenderer::new` and preserved, so the guarantees chain across
calls. -/
theorem prepare_capacity_mono (s : PrimState) (hinv : buf_inv s) :
    buf_inv PrimitiveRenderer_new ∧
    buf_inv (prepare s) ∧
    s.instances.length * INSTANCE_SIZE ≤ (prepare s).instance_buffer_size ∧
    s.instance_buffer_size ≤ (prepare s).instance_buffer_size ∧
    s.capacity ≤ (prepare s).capacity ∧
    (s.instance_buffer_size < s.instances.length * INSTANCE_SIZE →
      (prepare s).instance_buffer_size = s.instances.length * INSTANCE_SIZE ∧
      (prepare s).capacity = s.instances.length) ∧
    (s.instances.length * INSTANCE_SIZE ≤ s.instance_buffer_size →
      (prepare s).instance_buffer_size = s.instance_buffer_size ∧
      (prepare s).capacity = s.capacity) := by
  refine ⟨by unfold buf_inv PrimitiveRenderer_new; rfl, ?_⟩
  unfold buf_inv at hinv ⊢
  unfold prepare
  by_cases h : s.instances.isEmpty
  · rw [List.isEmpty_iff] at h
    rw [if_pos (by rw [h]; rfl)]
    refine ⟨hinv, by simp [h], le_refl _, le_refl _,
      fun hlt => absurd hlt (by simp [h]), fun _ => ⟨rfl, rfl⟩⟩
  · rw [if_neg h]
    dsimp only
    simp only [List.length_mergeSort]
    have hSZ : 0 < INSTANCE_SIZE := by unfold INSTANCE_SIZE; omega
    split
    · dsimp only
      refine ⟨rfl, le_refl _, by omega, ?_, fun _ => ⟨rfl, rfl⟩, by omega⟩
      have : s.capacity * INSTANCE_SIZE < s.instances.length * INSTANCE_SIZE := by
        omega
      exact Nat.le_of_lt (Nat.lt_of_mul_lt_mul_right this)
    · dsimp only
      exact ⟨hinv, by omega, le_refl _, le_refl _, by omega, fun _ => ⟨rfl, rfl⟩⟩

instance (s : PrimState) : Decidable (buf_inv s) :=
  Nat.decEq s.instance_buffer_size (s.capacity * INSTANCE_SIZE)

/-- Witness for C4 at a concrete state (one instance, zero-size buffer,
so the growth branch is exercised). -/
theorem prepare_capacity_mono_witness :
    buf_inv c1state ∧
    (buf_inv PrimitiveRenderer_new ∧
    buf_inv (prepare c1state) ∧
    c1state.instances.length * INSTANCE_SIZE ≤ (prepare c1state).instance_buffer_size ∧
    c1state.instance_buffer_size ≤ (prepare c1state).instance_buffer_size ∧
    c1state.capacity ≤ (prepare c1state).capacity ∧
    (c1state.instance_buffer_size < c1state.instances.length * INSTANCE_SIZE →
      (prepare c1state).instance_buffer_size
        = c1state.instances.length * INSTANCE_SIZE ∧
      (prepare c1state).capacity = c1state.instances.length) ∧
    (c1state.instances.length * INSTANCE_SIZE ≤ c1state.instance_buffer_size →
      (prepare c1state).instance_buffer_size = c1state.instance_buffer_size ∧
      (prepare c1state).capacity = c1state.capacity)) :=
  ⟨by decide, prepare_capacity_mono c1state (by decide)⟩

/-! ## C3: padded bytes per row -/

/-- C3 counterexample: at `width = 2^30` the `u32` product `width * 4`
wraps to `0`, so `padded_bytes_per_row` returns `0`, which is smaller than
the mathematical `width * 4`; the claim fails for this width. -/
theorem padded_bytes_per_row_overflow :
    padded_bytes_per_row 1073741824 = 0 ∧
      ¬ (1073741824 * 4 ≤ padded_bytes_per_row 1073741824) := by
  constructor
  · decide
  · decide

/-- C3 (amended): for every width with `width * 4 + 255 < 2^32` (all widths
up to `2^30 - 64`; beyond that the `u32` arithmetic wraps),
`padded_bytes_per_row width` is a multiple of the alignment constant 256
and is at least `width * 4`. -/
theorem padded_bytes_per_row_claim (width : Nat)
    (hw : width * 4 + 255 < U32_MOD) :
    padded_bytes_per_row width % COPY_BYTES_PER_ROW_ALIGNMENT = 0 ∧
      width * 4 ≤ padded_bytes_per_row width :=
  padded_bytes_per_row_spec width hw

/-- Witness for the amended C3 at the test harness's width 800. -/
theorem padded_bytes_per_row_claim_witness :
    800 * 4 + 255 < U32_MOD ∧
    (padded_bytes_per_row 800 % COPY_BYTES_PER_ROW_ALIGNMENT = 0 ∧
      800 * 4 ≤ padded_bytes_per_row 800) :=
  ⟨by decide, padded_bytes_per_row_claim 800 (by decide)⟩

/-! ## Text renderer state (text.rs) -/

/-- One entry of `TextRenderer::queued_texts` (a `QueuedText`). -/
structure QueuedText where
  text : String
  pos : Vec2q
  size : ℚ
  color : Vec4q
deriving DecidableEq

/-- A `wgpu_text` `Section` as built by `TextRenderer::prepare`: the text
with its scale, color and screen position. -/
structure TextSection where
  text : String
  scale : ℚ
  color : Vec4q
  screen_position : Vec2q
deriving DecidableEq

/-- The `Section` built from one queued text in `TextRenderer::prepare`. -/
def toSection (qt : QueuedText) : TextSection :=
  { text := qt.text, scale := qt.size, color := qt.color,
    screen_position := qt.pos }

/-- `TextRenderer` state: the per-frame queue and the sections currently
uploaded to the glyph brush (what `brush.draw` will render). -/
structure TextState where
  queued_texts : List QueuedText
  brush : List TextSection
deriving DecidableEq

/-- `TextRenderer::draw_text`: queues one text for the current frame. -/
def text_draw_text (t : TextState) (s : String) (pos : Vec2q) (size : ℚ)
    (color : Vec4q) : TextState :=
  { t with queued_texts := t.queued_texts ++ [⟨s, pos, size, color⟩] }

/-- `TextRenderer::prepare`: builds one `Section` per queued text, uploads
them to the brush (replacing its previous content), then clears the queue
("Clear for next frame"). -/
def text_prepare (t : TextState) : TextState :=
  { queued_texts := [], brush := t.queued_texts.map toSection }

/-- `TextRenderer::clear`: clears the queue only. -/
def text_clear (t : TextState) : TextState :=
  { t with queued_texts := [] }

/-! ## HeadlessRenderer capture (capture.rs) -/

/-- The CPU-visible state of `HeadlessRenderer` that the capture path
reads and writes. -/
structure HeadlessState where
  prim : PrimState
  text : TextState
  width : Nat
  height : Nat
deriving DecidableEq

/-- Everything `capture` hands to the GPU for one frame: the uploaded
(sorted) instance list, the issued primitive draw calls, and the text
sections the brush will draw. -/
structure Frame where
  instances : List Instance
  calls : List DrawCall
  sections : List TextSection
deriving DecidableEq

/-- The `prepare`/`render` portion of `HeadlessRenderer::capture`: runs
`prim.prepare`, `text.prepare`, then records the frame the render pass
draws.  Returns the frame together with the mutated renderer state. -/
def capture_frame (s : HeadlessState) : Frame × HeadlessState :=
  let prim' := prepare s.prim
  let text' := text_prepare s.text
  (⟨prim'.instances, render prim', text'.brush⟩,
    { s with prim := prim', text := text' })

theorem render_eq_of_instances {s₁ s₂ : PrimState}
    (h : s₁.instances = s₂.instances) : render s₁ = render s₂ := by
  unfold render
  rw [h]

theorem primLE_trans (a b c : Instance) (h1 : primLE a b = true)
    (h2 : primLE b c = true) : primLE a c = true :=
  boolKeyLE_trans instKey a b c h1 h2

theorem primLE_total (a b : Instance) : (primLE a b || primLE b a) = true :=
  boolKeyLE_total instKey a b

/-- Sorting is idempotent on the accumulator: a second `prepare` re-sorts
the already-sorted list and leaves it unchanged. -/
theorem prepare_of_sorted {t : PrimState}
    (hsorted : t.instances.Pairwise (fun a b => primLE a b)) :
    (prepare t).instances = t.instances := by
  unfold prepare
  by_cases ht : t.instances.isEmpty
  · rw [if_pos ht]
  · rw [if_neg ht]
    dsimp only
    split <;> exact List.mergeSort_of_sorted hsorted

theorem prepare_prepare_instances (s : PrimState) :
    (prepare (prepare s)).instances = (prepare s).instances := by
  by_cases h : s.instances.isEmpty
  · unfold prepare
    rw [List.isEmpty_iff] at h
    simp [h]
  · apply prepare_of_sorted
    have h1 : (prepare s).instances = s.instances.mergeSort primLE := by
      unfold prepare
      rw [if_neg h]
      dsimp only
      split <;> rfl
    rw [h1]
    exact List.sorted_mergeSort primLE_trans primLE_total s.instances

/-- The frame captured depends only on the accumulated instances and the
queued texts (buffer capacities, the previous brush content and the
dimensions do not appear in it). -/
theorem capture_frame_frame_eq {s₁ s₂ : HeadlessState}
    (hp : s₁.prim.instances = s₂.prim.instances)
    (ht : s₁.text.queued_texts = s₂.text.queued_texts) :
    (capture_frame s₁).1 = (capture_frame s₂).1 := by
  unfold capture_frame
  dsimp only
  have hpi : (prepare s₁.prim).instances = (prepare s₂.prim).instances := by
    rw [prepare_instances, prepare_instances, hp]
  simp only [Frame.mk.injEq]
  refine ⟨hpi, render_eq_of_instances hpi, ?_⟩
  unfold text_prepare
  dsimp only
  rw [ht]

/-! ## C7: PlotCapture::render_and_capture -/

/-- `PlotCapture::render_and_capture`: clears the primitive accumulator and
the text queue, runs the chart-to-primitives translator (the matplot++ FFI
callbacks, which append instances and queued texts computed from the chart
state), then delegates to `capture`.  `translate` is the translator,
`chart` the current chart state. -/
def render_and_capture {χ : Type} (translate : χ → List Instance × List QueuedText)
    (chart : χ) (s : HeadlessState) : Frame × HeadlessState :=
  let prim₀ := prim_clear s.prim
  let text₀ := text_clear s.text
  let prim₁ := { prim₀ with instances := prim₀.instances ++ (translate chart).1 }
  let text₁ := { text₀ with
    queued_texts := text₀.queued_texts ++ (translate chart).2 }
  capture_frame { s with prim := prim₁, text := text₁ }

/-- C7: `render_and_capture` clears both accumulators before the translator
repopulates them, so the captured frame depends only on the current chart
state: two renderer states with arbitrary leftover accumulator, brush and
buffer contents capture the same frame, and that frame is the capture of a
state holding exactly the translator's output. -/
theorem render_and_capture_reflects_chart {χ : Type}
    (translate : χ → List Instance × List QueuedText) (chart : χ)
    (s₁ s₂ : HeadlessState) :
    (render_and_capture translate chart s₁).1
      = (render_and_capture translate chart s₂).1 ∧
    (render_and_capture translate chart s₁).1 =
      (capture_frame
        { prim := { instances := (translate chart).1,
                    instance_buffer_size := s₁.prim.instance_buffer_size,
                    capacity := s₁.prim.capacity },
          text := { queued_texts := (translate chart).2,
                    brush := s₁.text.brush },
          width := s₁.width, height := s₁.height }).1 := by
  unfold render_and_capture
  dsimp only
  constructor <;>
    · apply capture_frame_frame_eq <;>
        dsimp only [prim_clear, text_clear] <;>
        simp

/-! ## C9: capture idempotence -/

/-- C9 counterexample state: one queued text, empty primitive batch. -/
def c9state : HeadlessState :=
  { prim := PrimitiveRenderer_new,
    text := { queued_texts := [⟨"t", ⟨0, 0⟩, 12, ⟨0, 0, 0, 1⟩⟩], brush := [] },
    width := 800, height := 600 }

/-- C9 counterexample: with a queued text, the first `capture` uploads one
section to the brush and drains the queue, so the second `capture` uploads
an empty section list — the two frames differ (the second renders no
text), and any rendering backend that draws text visibly returns different
pixel buffers. -/
theorem capture_frame_not_idem :
    (capture_frame c9state).1 ≠ (capture_frame ((capture_frame c9state).2)).1 := by
  decide

/-- C9 (amended): if no text is queued (text-free scenes, or any scene
driven through `render_and_capture`, which repopulates the accumulators
each call), two consecutive `capture` calls with no mutations in between
produce identical frames — hence byte-identical pixel buffers from the
deterministic render/readback path. -/
theorem capture_frame_idem (s : HeadlessState)
    (h : s.text.queued_texts = []) :
    (capture_frame s).1 = (capture_frame ((capture_frame s).2)).1 := by
  unfold capture_frame
  dsimp only
  have hA := prepare_prepare_instances s.prim
  simp only [Frame.mk.injEq]
  refine ⟨hA.symm, (render_eq_of_instances hA).symm, ?_⟩
  unfold text_prepare
  dsimp only
  rw [h]

/-- Text-free concrete state for the C9 witness. -/
def c9stateNoText : HeadlessState :=
  { prim := PrimitiveRenderer_new,
    text := { queued_texts := [], brush := [] },
    width := 800, height := 600 }

/-- Witness for the amended C9 at a text-free state. -/
theorem capture_frame_idem_witness :
    c9stateNoText.text.queued_texts = [] ∧
    (capture_frame c9stateNoText).1
      = (capture_frame ((capture_frame c9stateNoText).2)).1 :=
  ⟨rfl, capture_frame_idem c9stateNoText rfl⟩

/-! ## C6 and C8: readback, row packing, panics -/

/-- The padding-stripping loop of `capture` over already-fixed row sizes:
`for row in 0..height { pixels.extend(data[row*padded .. row*padded+rowBytes]) }`. -/
def pack_rows_go (paddedRow rowBytes : Nat) (data : List Nat) (height : Nat) :
    List Nat :=
  (List.range height).foldl
    (fun pixels row => pixels ++ ((data.drop (row * paddedRow)).take rowBytes))
    []

/-- The packing step of `capture` (capture.rs lines 254-265): copies each
row's first `width * 4` bytes out of the padded staging rows, in row
order, into a tightly packed buffer.  (`data[a..b]` is modelled by
`drop`/`take`; the surrounding theorems carry the in-bounds hypotheses
that the staging-buffer sizing guarantees, under which the two agree.) -/
def capture_pack_rows (width height : Nat) (data : List Nat) : List Nat :=
  pack_rows_go (padded_bytes_per_row width) (width * 4) data height

theorem pack_rows_go_succ (P W : Nat) (data : List Nat) (h : Nat) :
    pack_rows_go P W data (h + 1)
      = pack_rows_go P W data h ++ ((data.drop (h * P)).take W) := by
  unfold pack_rows_go
  rw [List.range_succ, List.foldl_append]
  rfl

theorem pack_rows_go_length (P W : Nat) (hWP : W ≤ P) (data : List Nat) :
    ∀ height, height * P ≤ data.length →
      (pack_rows_go P W data height).length = height * W := by
  intro height
  induction height with
  | zero =>
    intro _
    simp [pack_rows_go]
  | succ h ih =>
    intro hlen
    have hmul : (h + 1) * P = h * P + P := Nat.succ_mul h P
    have hlen' : h * P ≤ data.length := by omega
    rw [pack_rows_go_succ, List.length_append, ih hlen', List.length_take,
      List.length_drop]
    have hmulW : (h + 1) * W = h * W + W := Nat.succ_mul h W
    omega

theorem pack_rows_go_row (P W : Nat) (hWP : W ≤ P) (data : List Nat) :
    ∀ height, height * P ≤ data.length → ∀ r, r < height →
      ((pack_rows_go P W data height).drop (r * W)).take W
        = (data.drop (r * P)).take W := by
  intro height
  induction height with
  | zero =>
    intro _ r hr
    exact absurd hr (Nat.not_lt_zero r)
  | succ h ih =>
    intro hlen r hr
    have hmul : (h + 1) * P = h * P + P := Nat.succ_mul h P
    have hlen' : h * P ≤ data.length := by omega
    have hplen : (pack_rows_go P W data h).length = h * W :=
      pack_rows_go_length P W hWP data h hlen'
    rw [pack_rows_go_succ]
    by_cases hrh : r < h
    · have hstep : r * W + W ≤ h * W := by
        have := Nat.mul_le_mul_right W hrh
        rw [Nat.succ_mul] at this
        omega
      rw [List.drop_append_of_le_length (by omega)]
      rw [List.take_append_of_le_length (by rw [List.length_drop]; omega)]
      exact ih hlen' r hrh
    · have hr' : r = h := by omega
      subst hr'
      rw [List.drop_append_of_le_length (by omega), List.drop_of_length_le (by omega),
        List.nil_append, List.take_take]
      congr 1
      omega

/-- The outcome of a call that either returns a value or aborts the
process with a panic message. -/
inductive PanicOr (α : Type) where
  | panicked (msg : String)
  | ok (val : α)
deriving DecidableEq

/-- The readback tail of `HeadlessRenderer::capture` (capture.rs lines
244-270): `rx.recv()` may fail (channel closed, `mapResult = none`), the
map callback may report an error — both are `.expect`ed, i.e. panics;
on success the padded rows are packed and the staging buffer is unmapped.
Returns the call outcome together with whether the staging buffer is
still mapped afterwards. -/
def capture_readback (width height : Nat)
    (mapResult : Option (Except String Unit)) (data : List Nat) :
    PanicOr (List Nat) × Bool :=
  match mapResult with
  | none => (.panicked "GPU channel closed", true)
  | some (.error _) => (.panicked "Failed to map staging buffer", true)
  | some (.ok _) => (.ok (capture_pack_rows width height data), false)

/-- C6: a successful capture returns exactly `width * height * 4` bytes,
row-major, where row `r` is the first `width * 4` bytes of padded row `r`
of the mapped staging buffer (the alignment tail is discarded), and the
staging buffer is unmapped afterwards.  `data` is the mapped staging
content, whose length is the staging-buffer size `padded_row * height`. -/
theorem capture_readback_packs (width height : Nat) (data : List Nat)
    (hw : width * 4 + 255 < U32_MOD)
    (hlen : data.length = padded_bytes_per_row width * height) :
    capture_readback width height (some (Except.ok ())) data
      = (.ok (capture_pack_rows width height data), false) ∧
    (capture_pack_rows width height data).length = width * height * 4 ∧
    (∀ r, r < height →
      ((capture_pack_rows width height data).drop (r * (width * 4))).take
          (width * 4)
        = (data.drop (r * padded_bytes_per_row width)).take (width * 4)) := by
  have hWP : width * 4 ≤ padded_bytes_per_row width :=
    (padded_bytes_per_row_spec width hw).2
  have hlen' : height * padded_bytes_per_row width ≤ data.length := by
    rw [hlen, Nat.mul_comm]
  refine ⟨rfl, ?_, ?_⟩
  · unfold capture_pack_rows
    rw [pack_rows_go_length _ _ hWP data height hlen']
    ring
  · intro r hr
    exact pack_rows_go_row _ _ hWP data height hlen' r hr

/-- Concrete staging content for the C6 witness: one 1×1 frame, one padded
row of 256 bytes. -/
def c6data : List Nat := List.replicate 256 7

set_option maxRecDepth 4000 in
/-- Witness for C6 at `width = height = 1` with a concrete 256-byte
staging buffer. -/
theorem capture_readback_packs_witness :
    (1 * 4 + 255 < U32_MOD ∧
      c6data.length = padded_bytes_per_row 1 * 1) ∧
    (capture_readback 1 1 (some (Except.ok ())) c6data
      = (.ok (capture_pack_rows 1 1 c6data), false) ∧
    (capture_pack_rows 1 1 c6data).length = 1 * 1 * 4 ∧
    (∀ r, r < 1 →
      ((capture_pack_rows 1 1 c6data).drop (r * (1 * 4))).take (1 * 4)
        = (c6data.drop (r * padded_bytes_per_row 1)).take (1 * 4))) :=
  ⟨⟨by decide, by decide⟩,
    capture_readback_packs 1 1 c6data (by decide) (by decide)⟩

/-- `HeadlessRenderer::new` (capture.rs lines 64-89): `request_adapter`
returning no adapter and `request_device` failing are both `.expect`ed,
i.e. the call panics rather than returning. -/
def headless_new {α β : Type} (adapter : Option α)
    (request_device : α → Except String β) : PanicOr β :=
  match adapter with
  | none => .panicked "Failed to find a suitable GPU adapter"
  | some a =>
    match request_device a with
    | .error _ => .panicked "Failed to create device"
    | .ok d => .ok d

/-- C8: `capture` never returns a partial frame — for every map outcome it
either panics (channel closed, map rejected) or returns the full
`width * height * 4`-byte buffer; and `new` panics when no adapter or no
device can be acquired. -/
theorem capture_never_partial {α β : Type} (request_device : α → Except String β)
    (a : α) (e : String) (hf : request_device a = .error e)
    (width height : Nat) (data : List Nat) (err : String)
    (hw : width * 4 + 255 < U32_MOD)
    (hlen : data.length = padded_bytes_per_row width * height) :
    headless_new (none : Option α) request_device
      = .panicked "Failed to find a suitable GPU adapter" ∧
    headless_new (some a) request_device = .panicked "Failed to create device" ∧
    (capture_readback width height none data).1 = .panicked "GPU channel closed" ∧
    (capture_readback width height (some (.error err)) data).1
      = .panicked "Failed to map staging buffer" ∧
    (∀ m : Option (Except String Unit),
      (∃ msg, (capture_readback width height m data).1 = .panicked msg) ∨
      (∃ px, (capture_readback width height m data).1 = .ok px ∧
        px.length = width * height * 4)) := by
  refine ⟨rfl, ?_, rfl, rfl, ?_⟩
  · show (match request_device a with
      | .error _ => (.panicked "Failed to create device" : PanicOr β)
      | .ok d => .ok d) = .panicked "Failed to create device"
    rw [hf]
  · intro m
    match m with
    | none => exact Or.inl ⟨_, rfl⟩
    | some (.error e') => exact Or.inl ⟨_, rfl⟩
    | some (.ok _) =>
      refine Or.inr ⟨capture_pack_rows width height data, rfl, ?_⟩
      have hWP : width * 4 ≤ padded_bytes_per_row width :=
        (padded_bytes_per_row_spec width hw).2
      have hlen' : height * padded_bytes_per_row width ≤ data.length := by
        rw [hlen, Nat.mul_comm]
      unfold capture_pack_rows
      rw [pack_rows_go_length _ _ hWP data height hlen']
      ring

set_option maxRecDepth 4000 in
/-- Witness for C8 with a failing device request and the 1×1 staging
buffer. -/
theorem capture_never_partial_witness :
    ((fun _ : Unit => (Except.error "no device" : Except String Unit)) ()
        = Except.error "no device" ∧
      1 * 4 + 255 < U32_MOD ∧
      c6data.length = padded_bytes_per_row 1 * 1) ∧
    (headless_new (none : Option Unit)
        (fun _ => (Except.error "no device" : Except String Unit))
      = .panicked "Failed to find a suitable GPU adapter" ∧
    headless_new (some ())
        (fun _ => (Except.error "no device" : Except String Unit))
      = .panicked "Failed to create device" ∧
    (capture_readback 1 1 none c6data).1 = .panicked "GPU channel closed" ∧
    (capture_readback 1 1 (some (.error "map failed")) c6data).1
      = .panicked "Failed to map staging buffer" ∧
    (∀ m : Option (Except String Unit),
      (∃ msg, (capture_readback 1 1 m c6data).1 = .panicked msg) ∨
      (∃ px, (capture_readback 1 1 m c6data).1 = .ok px ∧
        px.length = 1 * 1 * 4))) :=
  ⟨⟨rfl, by decide, by decide⟩,
    capture_never_partial (fun _ => (Except.error "no device" : Except String Unit))
      () "no device" rfl 1 1 c6data "map failed" (by decide) (by decide)⟩

/-! ## C10: the render pass clears to opaque white -/

/-- An RGBA color value of a render-target texel. -/
structure Colorq where
  r : ℚ
  g : ℚ
  b : ℚ
  a : ℚ
deriving DecidableEq

/-- The framebuffer contents: a color per `(x, y)` texel. -/
def FBuf : Type := Nat → Nat → Colorq

/-- `wgpu::LoadOp` for a color attachment. -/
inductive LoadOpM where
  | clear (c : Colorq)
  | load
deriving DecidableEq

/-- Beginning a render pass: `Clear(c)` replaces the whole attachment with
`c`; `Load` keeps the previous texture contents. -/
def load_op_apply (op : LoadOpM) (prev : FBuf) : FBuf :=
  match op with
  | .clear c => fun _ _ => c
  | .load => prev

/-- The clear color of `capture`'s render pass (capture.rs lines 199-204):
opaque white `(1.0, 1.0, 1.0, 1.0)`. -/
def capture_clear_color : Colorq := ⟨1, 1, 1, 1⟩

/-- One draw executed inside the capture pass: a primitive draw call or
the text brush draw. -/
inductive PassDraw where
  | primDraw (c : DrawCall)
  | textDraw (sections : List TextSection)
deriving DecidableEq

/-- The draws recorded into `capture`'s render pass, in order: the
primitive renderer's draws, then the text brush draw. -/
def capture_pass_draws (s : HeadlessState) : List PassDraw :=
  (render (prepare s.prim)).map PassDraw.primDraw
    ++ [PassDraw.textDraw (text_prepare s.text).brush]

/-- Running a render pass: apply the load op to the previous attachment
contents, then execute the draws in order. `rasterize` is the GPU's
(backend-determined) per-draw effect on the framebuffer. -/
def run_render_pass (rasterize : PassDraw → FBuf → FBuf) (op : LoadOpM)
    (prev : FBuf) (draws : List PassDraw) : FBuf :=
  draws.foldl (fun fb d => rasterize d fb) (load_op_apply op prev)

/-- `capture`'s render pass: `LoadOp::Clear(white)`, then primitives, then
text, over whatever the off-screen texture previously contained. -/
def capture_pass (rasterize : PassDraw → FBuf → FBuf) (s : HeadlessState)
    (prev : FBuf) : FBuf :=
  run_render_pass rasterize (.clear capture_clear_color) prev
    (capture_pass_draws s)

/-- C10: `capture` begins its pass by clearing the texture to opaque white,
so (a) the pass output is independent of the previous frame's texture
contents, and (b) any texel no draw touches (for any rasterizer whose
draws only write inside their coverage `cov`) still holds the white clear
color in the output. -/
theorem capture_pass_clears_white
    (rasterize : PassDraw → FBuf → FBuf) (cov : PassDraw → Nat → Nat → Bool)
    (hloc : ∀ d fb x y, cov d x y = false → rasterize d fb x y = fb x y)
    (s : HeadlessState) (prev prev' : FBuf) (x y : Nat) :
    capture_pass rasterize s prev = capture_pass rasterize s prev' ∧
    ((∀ d ∈ capture_pass_draws s, cov d x y = false) →
      capture_pass rasterize s prev x y = capture_clear_color) := by
  constructor
  · rfl
  · intro hcov
    unfold capture_pass run_render_pass
    have key : ∀ (ds : List PassDraw) (fb : FBuf),
        (∀ d ∈ ds, cov d x y = false) → fb x y = capture_clear_color →
        (ds.foldl (fun fb d => rasterize d fb) fb) x y = capture_clear_color := by
      intro ds
      induction ds with
      | nil =>
        intro fb _ hfb
        exact hfb
      | cons d ds ih =>
        intro fb hcov' hfb
        simp only [List.foldl_cons]
        refine ih _ (fun d' hd' => hcov' d' (List.mem_cons_of_mem d hd')) ?_
        rw [hloc d fb x y (hcov' d (List.mem_cons_self d ds))]
        exact hfb
    exact key _ _ hcov rfl

/-- A rasterizer that never writes (its coverage is empty everywhere). -/
def raster_id : PassDraw → FBuf → FBuf := fun _ fb => fb

/-- The empty coverage function. -/
def cov_none : PassDraw → Nat → Nat → Bool := fun _ _ _ => false

/-- A concrete previous framebuffer: all black. -/
def prev_black : FBuf := fun _ _ => ⟨0, 0, 0, 1⟩

/-- Another concrete previous framebuffer: all red. -/
def prev_red : FBuf := fun _ _ => ⟨1, 0, 0, 1⟩

/-- Witness for C10 with the identity rasterizer over two different
previous framebuffers. -/
theorem capture_pass_clears_white_witness :
    (∀ d fb x y, cov_none d x y = false → raster_id d fb x y = fb x y) ∧
    (capture_pass raster_id c9stateNoText prev_black
        = capture_pass raster_id c9stateNoText prev_red ∧
      ((∀ d ∈ capture_pass_draws c9stateNoText, cov_none d 0 0 = false) →
        capture_pass raster_id c9stateNoText prev_black 0 0
          = capture_clear_color)) :=
  ⟨fun _ _ _ _ _ => rfl,
    capture_pass_clears_white raster_id cov_none (fun _ _ _ _ _ => rfl)
      c9stateNoText prev_black prev_red 0 0⟩

end MplWgpu
